import Mathlib

/-!
Verification development for the clip-creator media assembly pipeline.

Each JavaScript source function relevant to the checked claims is shallowly
embedded as an executable Lean definition.  External effects (the LLM
completion endpoint, the stock-video and audio search APIs, the media engine,
the filesystem and wall-clock randomness) are passed in as explicit
environment parameters, so that every definition is a pure function of its
inputs and the environment.  JavaScript numbers are modelled as `Int`/`Rat`,
optional values as `Option`, thrown exceptions as `Except String`.
-/

namespace ClipCreator

/-- JavaScript truthiness of an optional string: `undefined`, `null` and the
empty string are falsy. -/
def jsTruthyStr : Option String → Bool
  | none => false
  | some s => !(s == "")

/-- JavaScript truthiness of an optional number: `undefined`, `null` and `0`
are falsy. -/
def jsTruthyInt : Option Int → Bool
  | none => false
  | some n => !(n == 0)

/-- JavaScript `a.includes(b)` on strings: substring containment. -/
def jsIncludes (s pat : String) : Bool :=
  decide (pat.toList <:+: s.toList)

/-- JavaScript `s.endsWith(suffix)`: suffix match (list-based so that it
computes by kernel reduction). -/
def jsEndsWith (s suffix : String) : Bool :=
  decide (suffix.toList <:+ s.toList)

/-- JavaScript `x || d` for an optional string operand: falsy (`undefined`,
`null`, `""`) falls through to the default. -/
def jsOrStr (x : Option String) (d : String) : String :=
  match x with
  | none => d
  | some s => if s == "" then d else s

namespace Script

/-! Embedding of `src/core/script.js` (the `PromptGenerator` class with zod
validation: `ScriptSchema`, `validateConfig`, `validateResponse`,
`shouldRetry`, `generateScript`). -/

/-- `PromptGenerator.SEGMENT_DURATION` — canonical seconds per segment. -/
def SEGMENT_DURATION : Int := 5

/-- `PromptGenerator.MAX_RETRIES`. -/
def MAX_RETRIES : Nat := 3

/-- `PromptGenerator.LLM_ERROR_MESSAGE`. -/
def LLM_ERROR_MESSAGE : String :=
  "Failed to generate valid response from AI model. Please try again later."

/-- The configuration fields `validateConfig` and the prompt builder read.
Fields are optional because JavaScript callers may omit them. -/
structure ScriptConfig where
  duration : Option Int
  category : Option String
  tone : Option String
  style : Option String
deriving DecidableEq, Repr

/-- The `requiredFields.filter((field) => !config[field])` computation of
`validateConfig`, in source order `["duration", "category", "tone", "style"]`. -/
def missingFields (c : ScriptConfig) : List String :=
  (if jsTruthyInt c.duration then [] else ["duration"]) ++
  (if jsTruthyStr c.category then [] else ["category"]) ++
  (if jsTruthyStr c.tone then [] else ["tone"]) ++
  (if jsTruthyStr c.style then [] else ["style"])

/-- `PromptGenerator.validateConfig`: reject when a required field is missing,
then when the duration is not divisible by `SEGMENT_DURATION`. -/
def validateConfig (c : ScriptConfig) : Except String Unit :=
  let missing := missingFields c
  if missing ≠ [] then
    .error ("Missing required fields: " ++ String.intercalate ", " missing)
  else if c.duration.getD 0 % SEGMENT_DURATION ≠ 0 then
    .error ("Duration must be divisible by " ++ toString SEGMENT_DURATION)
  else
    .ok ()

/-- One parsed segment object, as constrained by the zod `SegmentSchema`. -/
structure SegmentData where
  id : Int
  text : String
  duration : Rat
  description : String
  transition : String
deriving DecidableEq, Repr

/-- The transition enum of `SegmentSchema` (`z.enum [...]`). -/
def TRANSITION_ENUM : List String :=
  ["fade", "slideLeft", "slideRight", "dissolve", "circleWipe", "pixelize",
   "panLeft", "panRight", "scaleUp", "scaleDown", "rotate", "directionalWipe"]

/-- The per-segment checks of `SegmentSchema`: `id` a positive integer,
`text` at least 15 characters, `duration` the literal 5, `description` at
least 5 characters, `transition` in the fixed enum. -/
def segmentSchemaOk (s : SegmentData) : Bool :=
  decide (0 < s.id) && decide (15 ≤ s.text.length) && (s.duration == 5) &&
    decide (5 ≤ s.description.length) && TRANSITION_ENUM.contains s.transition

/-- A parsed response body of the expected overall shape. -/
structure ScriptResult where
  segments : List SegmentData
deriving DecidableEq, Repr

/-- `ScriptSchema`: at least 3 segments, each passing `SegmentSchema`. -/
def scriptSchemaOk (r : ScriptResult) : Bool :=
  decide (3 ≤ r.segments.length) && r.segments.all segmentSchemaOk

/-- The trimmed text content of a model completion, as `validateResponse`
case-splits on it. -/
inductive RawContent where
  /-- content missing, empty after trimming, or the literal `"{}"` -/
  | empty : RawContent
  /-- `JSON.parse` throws, with the thrown message -/
  | parseFailure (detail : String) : RawContent
  /-- valid JSON that does not have the expected object shape at all -/
  | shapeMismatch : RawContent
  /-- valid JSON of the expected shape -/
  | parsed (r : ScriptResult) : RawContent
deriving DecidableEq, Repr

/-- `PromptGenerator.validateResponse`: empty-content check, then
`JSON.parse`, then `ScriptSchema.safeParse`; any inner failure is re-thrown
as an `Invalid JSON response: …` error by the surrounding `catch`. -/
def validateResponse : RawContent → Except String ScriptResult
  | .empty => .error "Empty response from model"
  | .parseFailure detail => .error ("Invalid JSON response: " ++ detail)
  | .shapeMismatch => .error ("Invalid JSON response: " ++ "Invalid JSON structure")
  | .parsed r =>
    if scriptSchemaOk r then .ok r
    else .error ("Invalid JSON response: " ++ "Invalid JSON structure")

/-- `PromptGenerator.shouldRetry`'s fixed list of retryable error fragments. -/
def RETRYABLE_ERRORS : List String :=
  ["Invalid JSON response", "Empty response from model", "Unexpected end of JSON input"]

/-- `PromptGenerator.shouldRetry`: the error message contains one of the
retryable fragments. -/
def shouldRetry (msg : String) : Bool :=
  RETRYABLE_ERRORS.any (fun e => jsIncludes msg e)

/-- Outcome of one `groq.chat.completions.create` call: either a completion
whose content is the given `RawContent`, or a thrown transport/auth error. -/
inductive CallOutcome where
  | response (content : RawContent)
  | failure (msg : String)

/-- Observable behaviour of one `generateScript` run: how many endpoint
calls were made, which backoff delays (ms) were awaited, and the value
returned or error thrown. -/
structure RunTrace where
  calls : Nat
  delays : List Nat
  result : Except String ScriptResult
deriving Repr

/-- `PromptGenerator.generateScript(config, attempt)`: validate the config,
call the endpoint, validate the response; on a thrown error, retry with
backoff `1000 * (attempt + 1)` ms while `shouldRetry` holds and
`attempt < MAX_RETRIES`, otherwise throw the generic `LLM_ERROR_MESSAGE`.
`env` gives the endpoint's outcome for each attempt index. -/
def generateScript (env : Nat → CallOutcome) (config : ScriptConfig)
    (attempt : Nat) : RunTrace :=
  match validateConfig config with
  | .error msg =>
    if h : shouldRetry msg = true ∧ attempt < MAX_RETRIES then
      let t := generateScript env config (attempt + 1)
      { calls := t.calls, delays := 1000 * (attempt + 1) :: t.delays, result := t.result }
    else
      { calls := 0, delays := [], result := .error LLM_ERROR_MESSAGE }
  | .ok _ =>
    match env attempt with
    | .failure msg =>
      if h : shouldRetry msg = true ∧ attempt < MAX_RETRIES then
        let t := generateScript env config (attempt + 1)
        { calls := 1 + t.calls, delays := 1000 * (attempt + 1) :: t.delays,
          result := t.result }
      else
        { calls := 1, delays := [], result := .error LLM_ERROR_MESSAGE }
    | .response c =>
      match validateResponse c with
      | .ok script => { calls := 1, delays := [], result := .ok script }
      | .error msg =>
        if h : shouldRetry msg = true ∧ attempt < MAX_RETRIES then
          let t := generateScript env config (attempt + 1)
          { calls := 1 + t.calls, delays := 1000 * (attempt + 1) :: t.delays,
            result := t.result }
        else
          { calls := 1, delays := [], result := .error LLM_ERROR_MESSAGE }
termination_by MAX_RETRIES + 1 - attempt
decreasing_by
  all_goals (obtain ⟨-, h2⟩ := h; omega)

/-- The claim's "retryable failure at attempt `i`": the endpoint call either
throws an error `shouldRetry` accepts, or returns content that
`validateResponse` rejects with such an error. -/
def RetryableFailureAt (env : Nat → CallOutcome) (i : Nat) : Prop :=
  match env i with
  | .failure m => shouldRetry m = true
  | .response c => ∃ m, validateResponse c = .error m ∧ shouldRetry m = true

end Script

namespace Music

/-! Embedding of `src/core/audio.js` (the `AudioManager` class:
`CATEGORY_MAPPINGS`, `getSearchTerms`, `generateMusic`). -/

/-- `AudioManager.CATEGORY_MAPPINGS`: category → alternative search terms. -/
def CATEGORY_MAPPINGS : List (String × List String) :=
  [("Science & Technology", ["electronic futuristic", "ambient digital"]),
   ("Sports & Fitness", ["energetic upbeat", "fast rhythmic"]),
   ("Government & Politics", ["serious news", "dramatic orchestral"]),
   ("Entertainment & Celebrities", ["trendy upbeat", "pop dance"]),
   ("Education & Learning", ["calm acoustic", "soft background"]),
   ("Video Games & Esports", ["retro chiptune", "intense cinematic"]),
   ("Travel & Tourism", ["adventure nature", "world upbeat"]),
   ("Health & Wellness", ["meditation relaxing", "calm ambient"]),
   ("World News", ["news background", "broadcast serious"]),
   ("Business & Finance", ["corporate serious", "tech background"]),
   ("Lifestyle & Culture", ["lo-fi chill", "smooth modern"]),
   ("Art & Design", ["creative atmospheric", "abstract instrumental"]),
   ("Environment & Sustainability", ["nature sounds", "peaceful ambient"]),
   ("Food & Cooking", ["warm jazzy", "cozy kitchen"])]

/-- `AudioManager.getSearchTerms`: mapped terms, or the generic fallback pair
for an unmapped category (JavaScript `||`). -/
def getSearchTerms (category : String) : List String :=
  (CATEGORY_MAPPINGS.lookup category).getD ["background music", "cinematic instrumental"]

/-- The hard-coded per-attempt fallback search term inside `generateMusic`
(`searchTerms[attempt] || "background music cinematic instrumental"`). -/
def FALLBACK_TERM : String := "background music cinematic instrumental"

/-- `MAX_RETRIES` inside `generateMusic`. -/
def MAX_RETRIES : Nat := 3

/-- The aggregate error thrown once all attempts are exhausted. -/
def MAX_RETRIES_MSG : String := "Max retries reached. Failed to generate music."

/-- One FreeSound track as read by `generateMusic`. -/
structure Track where
  name : String
  username : String
  previewUrl : String
deriving DecidableEq, Repr

/-- The query parameters of one FreeSound search request. -/
structure SearchRequest where
  query : String
  filter : String
  sort : String
deriving DecidableEq, Repr

/-- The external world as `generateMusic` observes it, per attempt index:
the search response (`.error` = non-ok HTTP status or thrown fetch error),
the `Math.random()` draw used for track selection, and whether the
download / fade / re-encode tail of the attempt succeeds. -/
structure MusicEnv where
  search : Nat → Except String (List Track)
  rand : Nat → Rat
  downloadOk : Nat → Bool

/-- Observable behaviour of one `generateMusic` run: the search requests
issued in order, and the selected track on success (`.ok none` is the
source's fall-off-the-loop `undefined`, reachable only when the loop is
entered with `attempt ≥ MAX_RETRIES`). The returned filesystem path is a
fresh uuid path derived from the selected track, so the track stands for
the return value. -/
structure MusicTrace where
  requests : List SearchRequest
  result : Except String (Option Track)
deriving Repr

/-- The `try` body of one `generateMusic` attempt, after the search request
is issued: require a non-empty result list, select
`results[Math.floor(Math.random() * results.length)]`, then download the
preview and run the fade/re-encode tail. -/
def attemptStep (env : MusicEnv) (attempt : Nat) : Except String Track :=
  match env.search attempt with
  | .error e => .error e
  | .ok results =>
    if results.isEmpty then .error "No results found"
    else
      match results[((env.rand attempt) * results.length).floor.toNat]? with
      | none => .error "selected track undefined"
      | some track =>
        if env.downloadOk attempt then .ok track
        else .error "Audio download failed"

/-- The `while (attempt < MAX_RETRIES)` loop of `AudioManager.generateMusic`:
pick the attempt-indexed search term (with the hard-coded fallback once the
list is exhausted), issue the search filtered to tracks at least 60s long
sorted by rating, run the attempt body; any failure increments `attempt` and
rethrows the aggregate error once `attempt ≥ MAX_RETRIES`. -/
def generateMusicLoop (env : MusicEnv) (searchTerms : List String)
    (attempt : Nat) : MusicTrace :=
  if _h : attempt < MAX_RETRIES then
    let searchTerm := jsOrStr searchTerms[attempt]? FALLBACK_TERM
    let req : SearchRequest := ⟨searchTerm, "duration:[60 TO *]", "rating_desc"⟩
    match attemptStep env attempt with
    | .ok track => { requests := [req], result := .ok (some track) }
    | .error _ =>
      if attempt + 1 ≥ MAX_RETRIES then
        { requests := [req], result := .error MAX_RETRIES_MSG }
      else
        let t := generateMusicLoop env searchTerms (attempt + 1)
        { requests := req :: t.requests, result := t.result }
  else
    { requests := [], result := .ok none }
termination_by MAX_RETRIES - attempt
decreasing_by omega

/-- The search request the claim expects at attempt index `j`: the `j`-th
term for the category (with the in-loop fallback string), the minimum-60s
duration filter and the rating sort. -/
def reqAt (terms : List String) (j : Nat) : SearchRequest :=
  ⟨jsOrStr terms[j]? FALLBACK_TERM, "duration:[60 TO *]", "rating_desc"⟩

/-- `AudioManager.generateMusic({category})`: derive the retry terms for the
category and run the attempt loop from 0. -/
def generateMusic (env : MusicEnv) (category : String) : MusicTrace :=
  generateMusicLoop env (getSearchTerms category) 0

end Music

namespace Video

/-! Embedding of `src/core/video.js` (the `VideoGenerator` class:
constructor, `findSuitableVideo`, `createMediaSegment` up to the point the
claims reach, `combineVideosWithTransitions`, `combineVideoAndAudio`). -/

/-- `this.TRANSITION_DURATION` (seconds). -/
def TRANSITION_DURATION : Rat := 1 / 2

/-- `this.TRANSITION_MAPPING`: segment transition tag → xfade filter name. -/
def TRANSITION_MAPPING : List (String × String) :=
  [("fade", "fade"), ("dissolve", "fadeblack"), ("slideLeft", "slideleft"),
   ("slideRight", "slideright"), ("circleWipe", "circleopen"), ("pixelize", "pixelize")]

/-- The fields of a `VideoSegment` that `combineVideosWithTransitions` reads. -/
structure VideoSegmentInfo where
  duration : Rat
  transition : Option String
deriving DecidableEq, Repr

/-- One `xfade` join emitted into the filter graph: the mapped transition
name, the computed offset, and the accumulated duration after the join. -/
structure StitchJoin where
  transitionType : String
  offset : Rat
  accAfter : Rat
deriving DecidableEq, Repr

/-- The two-stage fallback of the stitch loop:
`transitions[index-1].transition || "fade"` then
`TRANSITION_MAPPING[...] || "fade"`. -/
def mapTransition (t : Option String) : String :=
  let segmentTransition := jsOrStr t "fade"
  jsOrStr (TRANSITION_MAPPING.lookup segmentTransition) "fade"

/-- The `index ≥ 1` iterations of the `videoFiles.forEach` loop in
`combineVideosWithTransitions`: `prev` is the transition declared on the
preceding segment, `acc` the accumulated duration so far, and the list the
remaining segments. Offset is `acc - TRANSITION_DURATION` clamped to 0 when
negative, and the accumulation advances by `duration - TRANSITION_DURATION`. -/
def stitchJoins (prev : Option String) (acc : Rat) :
    List VideoSegmentInfo → List StitchJoin
  | [] => []
  | seg :: rest =>
    let transitionType := mapTransition prev
    let offset0 := acc - TRANSITION_DURATION
    let offset := if offset0 < 0 then 0 else offset0
    let acc' := acc + seg.duration - TRANSITION_DURATION
    ⟨transitionType, offset, acc'⟩ :: stitchJoins seg.transition acc' rest

/-- `VideoGenerator.combineVideosWithTransitions`: input validation, then
the stitch loop; the first segment seeds the accumulated duration. Returns
the join list and the final accumulated duration (used for `-t`). -/
def combineVideosWithTransitions (videoFiles : List String)
    (transitions : List VideoSegmentInfo) : Except String (List StitchJoin × Rat) :=
  if videoFiles = [] then
    .error "First argument must be a non-empty array of video file paths"
  else if transitions.length ≠ videoFiles.length then
    .error "Transitions array length must match number of videos"
  else
    match transitions with
    | [] => .error "First argument must be a non-empty array of video file paths"
    | seg0 :: rest =>
      let joins := stitchJoins seg0.transition seg0.duration rest
      let finalAcc := ((joins.map StitchJoin.accAfter).getLast?).getD seg0.duration
      .ok (joins, finalAcc)

/-- The accumulated duration before join `i`, written from the claim:
it starts as the first segment's duration and each join adds
`duration - transition_length`. `rest` are the segments after the first. -/
def claimAccAt (d0 : Rat) (rest : List VideoSegmentInfo) (i : Nat) : Rat :=
  d0 + ((rest.take i).map (fun s => s.duration - TRANSITION_DURATION)).sum

/-- The join list as the claim describes it, by index: join `k` applies the
transition declared on the preceding segment, at offset
`accumulated - transition_length` clamped below at 0, and leaves the
accumulation advanced by the joined segment's duration minus the
transition length. -/
def claimJoins (prev0 : Option String) (d0 : Rat)
    (rest : List VideoSegmentInfo) : List StitchJoin :=
  (List.range rest.length).map fun k =>
    { transitionType :=
        mapTransition (if k = 0 then prev0
          else (rest[k-1]?).bind (fun s => s.transition))
      offset := max 0 (claimAccAt d0 rest k - TRANSITION_DURATION)
      accAfter := claimAccAt d0 rest (k + 1) }

/-- One downloadable variant of a Pexels search hit. -/
structure VideoFile where
  quality : String
  link : String
deriving DecidableEq, Repr

/-- One Pexels search hit (only the field the code reads). -/
structure PexelsVideo where
  video_files : List VideoFile
deriving DecidableEq, Repr

/-- The fields of a segment that `findSuitableVideo` turns into queries. -/
structure SegmentQueryInfo where
  description : String
  text : String
deriving DecidableEq, Repr

/-- The error message of the dead `throw` in `findSuitableVideo`. -/
def NO_SUITABLE_MEDIA_MSG : String :=
  "No suitable media found after multiple searches. Please try again with different parameters."

/-- The `for (const query of searchQueries)` loop: each search error is
swallowed by the inner `catch`; a query is accepted when its first result
offers an `"hd"` file variant. Falling through every query returns `none`
(the source function resolves `undefined`). -/
def tryQueries (env : String → Except String (List PexelsVideo)) :
    List String → Option (VideoFile × String)
  | [] => none
  | q :: qs =>
    match env q with
    | .error _ => tryQueries env qs
    | .ok videos =>
      match videos with
      | [] => tryQueries env qs
      | v0 :: _ =>
        match v0.video_files.find? (fun f => f.quality == "hd") with
        | some f => some (f, q)
        | none => tryQueries env qs

/-- `VideoGenerator.findSuitableVideo`: the ordered query list — segment
description, segment text, then the fixed generic fallbacks. -/
def findSuitableVideo (env : String → Except String (List PexelsVideo))
    (seg : SegmentQueryInfo) : Option (VideoFile × String) :=
  tryQueries env
    [seg.description, seg.text, "background", "nature", "landscape", "abstract", "minimalist"]

/-- What `const { videoFile } = await this.findSuitableVideo(segment)` throws
when the search resolves `undefined`. -/
def DESTRUCTURE_TYPEERROR_MSG : String :=
  "TypeError: cannot destructure videoFile of undefined"

/-- `VideoGenerator.createMediaSegment`, up to the destructuring of the
search result (the subsequent download/drawtext/encode steps are outside the
claims checked here and depend only on a successfully found `videoFile`). -/
def createMediaSegment (env : String → Except String (List PexelsVideo))
    (seg : SegmentQueryInfo) : Except String VideoFile :=
  match findSuitableVideo env seg with
  | some (f, _) => .ok f
  | none => .error DESTRUCTURE_TYPEERROR_MSG

/-- The filesystem and media engine as `combineVideoAndAudio` observes them:
`existsSync` per path, and the engine outcome (`none` = the ffmpeg run ends
successfully, `some (err, stderr)` = the error callback fires). -/
structure MuxEnv where
  fileExists : String → Bool
  engineError : Option (String × String)

/-- Observable behaviour of one `combineVideoAndAudio` call: the `existsSync`
probes in order, whether the engine was invoked, and the value returned or
error thrown. -/
structure MuxTrace where
  probed : List String
  engineInvoked : Bool
  result : Except String String
deriving Repr

/-- `VideoGenerator.combineVideoAndAudio`: `validatePath(audioPath, "audio")`
then `validatePath(videoPath, "video")` (each checks the extension before
`existsSync`), then the ffmpeg run. Validation errors are rethrown by the
outer `catch` as `Combination failed: …`; an engine error rejects with the
engine message plus its stderr. -/
def combineVideoAndAudio (env : MuxEnv)
    (audioPath videoPath outputPath : String) : MuxTrace :=
  if !(jsEndsWith audioPath ".mp3") then
    ⟨[], false, .error ("Combination failed: " ++ "Invalid audio file format")⟩
  else if !(env.fileExists audioPath) then
    ⟨[audioPath], false, .error ("Combination failed: " ++ "audio file not found")⟩
  else if !(jsEndsWith videoPath ".mp4") then
    ⟨[audioPath], false, .error ("Combination failed: " ++ "Invalid video file format")⟩
  else if !(env.fileExists videoPath) then
    ⟨[audioPath, videoPath], false, .error ("Combination failed: " ++ "video file not found")⟩
  else
    match env.engineError with
    | none => ⟨[audioPath, videoPath], true, .ok outputPath⟩
    | some (err, stderr) =>
      ⟨[audioPath, videoPath], true,
        .error ("FFmpeg error: " ++ err ++ "\n" ++ "Stderr: " ++ stderr)⟩

/-- The constructor arguments the `VideoGenerator` validity checks read.
Upstream, `getNoiseLessConfig` strips `undefined`/`null` keys before the
spread merge with `DEFAULT_CONFIG`, so an absent key is `none`. -/
structure VideoGenConfig where
  pexelsKey : Option String
  fps : Option Rat
deriving Repr

/-- `DEFAULT_CONFIG.fps`. -/
def DEFAULT_FPS : Rat := 30

/-- The `VideoGenerator` constructor: merge with defaults, require a Pexels
key, require `0 < fps ≤ 60`, and only then call `ensureDirectories` (the
Boolean records whether that point was reached). -/
def videoGeneratorConstructor (config : VideoGenConfig) : Bool × Except String Rat :=
  let fps := config.fps.getD DEFAULT_FPS
  if !(jsTruthyStr config.pexelsKey) then
    (false, .error "Pexels API key is required to generate media-based videos")
  else if fps ≤ 0 || fps > 60 then
    (false, .error "Invalid FPS value")
  else
    (true, .ok fps)

end Video

namespace Orchestrator

/-! Embedding of the validation prefix of `createVideo` in `src/index.js`. -/

/-- The configuration keys the `createVideo` validation prefix reads. -/
structure PipelineConfig where
  category : Option String
  tone : Option String
  topic : Option String
  groqKey : Option String
  pexelsKey : Option String
  freeSoundKey : Option String
deriving DecidableEq, Repr

/-- The two guard clauses at the top of `createVideo`: missing API keys, then
missing category or tone (each `process.exit(1)` is modelled as an error). -/
def createVideoValidation (c : PipelineConfig) : Except String Unit :=
  if !(jsTruthyStr c.groqKey) || !(jsTruthyStr c.pexelsKey) || !(jsTruthyStr c.freeSoundKey) then
    .error "Missing API keys. Please check your configuration"
  else if !(jsTruthyStr c.category) || !(jsTruthyStr c.tone) then
    .error "Category or Tone Missing from the config"
  else
    .ok ()

/-- Observable shape of one `createVideo` run up to the first component:
whether validation failed, and whether the generator components were
constructed (construction, and any later network activity, happen strictly
after both guard clauses pass; the validation itself reads only `config`). -/
structure OrchestratorTrace where
  validationError : Option String
  componentsConstructed : Bool
deriving DecidableEq, Repr

/-- The prefix of `createVideo`: run the guard clauses, then construct
`PromptGenerator`, `AudioManager` and `VideoGenerator`. -/
def createVideoPrefix (c : PipelineConfig) : OrchestratorTrace :=
  match createVideoValidation c with
  | .error e => ⟨some e, false⟩
  | .ok _ => ⟨none, true⟩

end Orchestrator

namespace Batch

/-! Embedding of `SimpleBatchProcessor` (the batch controller): the queue /
active-set bookkeeping of `process`, `processQueue` and the `close` handler
of `processTask`. Task ids (`batchId-index` strings) are modelled by their
index; wall-clock durations are environment-provided rationals. -/

/-- The controller's mutable state: FIFO `queue`, `activeProcesses`,
append-only `results` and `errors` (task id with measured duration), and the
list of emitted completion summaries (success count, failure count, total
duration) — `emit("complete", …)` appends one entry. -/
structure BatchState where
  queue : List Nat
  active : List Nat
  results : List (Nat × Rat)
  errors : List (Nat × Rat)
  summaries : List (Nat × Nat × Rat)
deriving DecidableEq, Repr

/-- The `while (queue.length > 0 && activeProcesses.size < maxConcurrent)`
admission loop of `processQueue`, on the (queue, active) pair. -/
def admitLoop (maxConcurrent : Nat) : List Nat → List Nat → List Nat × List Nat
  | [], active => ([], active)
  | t :: rest, active =>
    if active.length < maxConcurrent then admitLoop maxConcurrent rest (active ++ [t])
    else (t :: rest, active)

/-- `results.reduce((acc, r) => acc + parseFloat(r.duration), 0)`. -/
def totalDuration (results : List (Nat × Rat)) : Rat :=
  (results.map Prod.snd).sum

/-- `SimpleBatchProcessor.processQueue`: admit queued tasks while below the
concurrency ceiling, then, if both queue and active set are empty, finalize
and emit the completion summary. -/
def processQueue (mc : Nat) (s : BatchState) : BatchState :=
  let qa := admitLoop mc s.queue s.active
  let s' := { s with queue := qa.1, active := qa.2 }
  if qa.1 = [] ∧ qa.2 = [] then
    { s' with summaries :=
        s'.summaries ++ [(s'.results.length, s'.errors.length, totalDuration s'.results)] }
  else s'

/-- Exit status of one child process, with its measured duration. -/
inductive TaskOutcome where
  | success (duration : Rat)
  | failure (duration : Rat)

/-- The `close` handler in `processTask`: drop the task from the active set,
record its outcome, then call `processQueue` again. -/
def finishTask (mc : Nat) (s : BatchState) (t : Nat) (o : TaskOutcome) : BatchState :=
  let s1 := { s with active := s.active.erase t }
  let s2 :=
    match o with
    | .success d => { s1 with results := s1.results ++ [(t, d)] }
    | .failure d => { s1 with errors := s1.errors ++ [(t, d)] }
  processQueue mc s2

/-- One scheduler step: some active task's child process exits. Steps are the
only mutations after batch start (JavaScript runs each handler to
completion, so states between handlers are the observation points). -/
inductive BatchStep (mc : Nat) : BatchState → BatchState → Prop
  | finish (s : BatchState) (t : Nat) (o : TaskOutcome) (ht : t ∈ s.active) :
      BatchStep mc s (finishTask mc s t o)

/-- `SimpleBatchProcessor.process(baseConfig, count)`: enqueue `count` tasks
into the empty state and run `processQueue` once. -/
def startBatch (mc count : Nat) : BatchState :=
  processQueue mc
    { queue := List.range count, active := [], results := [], errors := [], summaries := [] }

/-- States observable at some point of the batch run. -/
def Reachable (mc : Nat) (s s' : BatchState) : Prop :=
  Relation.ReflTransGen (BatchStep mc) s s'

/-- The claimed invariant: the active set never exceeds the ceiling; queued +
active + completed (results plus errors) always sums to the submitted count;
and the completion summary has been emitted exactly once if the batch is
complete (queue and active both empty) and never before. -/
def batchInvariant (mc count : Nat) (s : BatchState) : Prop :=
  s.active.length ≤ mc ∧
  s.queue.length + s.active.length + (s.results.length + s.errors.length) = count ∧
  s.summaries = (if s.queue = [] ∧ s.active = []
    then [(s.results.length, s.errors.length, totalDuration s.results)] else [])

end Batch

/-! ## Helper lemmas -/

theorem jsTruthyStr_some_ne (s : String) (h : s ≠ "") : jsTruthyStr (some s) = true := by
  simp [jsTruthyStr, h]

theorem clamp_eq_max (x : Rat) : (if x < 0 then 0 else x) = max 0 x := by
  rcases lt_or_le x 0 with h | h
  · simp [h, max_eq_left h.le]
  · simp [not_lt.2 h, max_eq_right h]

/-! ## C10 — VideoGenerator constructor validation -/

/-- C10: the `VideoGenerator` constructor throws before `ensureDirectories`
for every configuration missing the Pexels API key, and (key present) for
every configuration whose merged fps is ≤ 0 or > 60 with the "Invalid FPS
value" error; every configuration passing both checks constructs
successfully. -/
theorem videoGenerator_constructor_validation :
    (∀ cfg : Video.VideoGenConfig, jsTruthyStr cfg.pexelsKey = false →
      Video.videoGeneratorConstructor cfg =
        (false, .error "Pexels API key is required to generate media-based videos"))
  ∧ (∀ cfg : Video.VideoGenConfig, jsTruthyStr cfg.pexelsKey = true →
      (cfg.fps.getD Video.DEFAULT_FPS ≤ 0 ∨ 60 < cfg.fps.getD Video.DEFAULT_FPS) →
      Video.videoGeneratorConstructor cfg = (false, .error "Invalid FPS value"))
  ∧ (∀ cfg : Video.VideoGenConfig, jsTruthyStr cfg.pexelsKey = true →
      0 < cfg.fps.getD Video.DEFAULT_FPS → cfg.fps.getD Video.DEFAULT_FPS ≤ 60 →
      Video.videoGeneratorConstructor cfg = (true, .ok (cfg.fps.getD Video.DEFAULT_FPS))) := by
  refine ⟨?_, ?_, ?_⟩
  · intro cfg h
    simp [Video.videoGeneratorConstructor, h]
  · intro cfg h hfps
    have hc : (decide (cfg.fps.getD Video.DEFAULT_FPS ≤ 0) ||
        decide (cfg.fps.getD Video.DEFAULT_FPS > 60)) = true := by
      rcases hfps with h1 | h1 <;> simp [h1]
    simp [Video.videoGeneratorConstructor, h, hc]
  · intro cfg h h1 h2
    simp [Video.videoGeneratorConstructor, h, not_le.2 h1, not_lt.2 h2]

/-- Witness for C10 at concrete configurations. -/
theorem videoGenerator_constructor_validation_witness :
    Video.videoGeneratorConstructor ⟨some "pexels-key", some 24⟩ = (true, .ok 24)
  ∧ Video.videoGeneratorConstructor ⟨none, some 24⟩ =
      (false, .error "Pexels API key is required to generate media-based videos")
  ∧ Video.videoGeneratorConstructor ⟨some "pexels-key", some 61⟩ =
      (false, .error "Invalid FPS value") := by
  refine ⟨?_, ?_, ?_⟩
  · exact videoGenerator_constructor_validation.2.2 ⟨some "pexels-key", some 24⟩
      (by decide) (by norm_num) (by norm_num)
  · exact videoGenerator_constructor_validation.1 ⟨none, some 24⟩ (by decide)
  · exact videoGenerator_constructor_validation.2.1 ⟨some "pexels-key", some 61⟩
      (by decide) (Or.inr (by norm_num))

/-! ## C6 — combineVideoAndAudio preconditions -/

/-- C6: with an existing `.mp3` audio file and an existing `.mp4` video file
the muxer resolves with exactly the requested output path; a video path not
ending in `.mp4` rejects with the invalid-video-format error before probing
the video path or invoking the engine; the invalid-format and not-found
conditions carry distinct messages, both raised before the engine runs. -/
theorem combineVideoAndAudio_validation :
    (∀ (env : Video.MuxEnv) (a v o : String),
      jsEndsWith a ".mp3" = true → env.fileExists a = true →
      jsEndsWith v ".mp4" = true → env.fileExists v = true → env.engineError = none →
      Video.combineVideoAndAudio env a v o = ⟨[a, v], true, .ok o⟩)
  ∧ (∀ (env : Video.MuxEnv) (a v o : String),
      jsEndsWith a ".mp3" = true → env.fileExists a = true →
      jsEndsWith v ".mp4" = false →
      Video.combineVideoAndAudio env a v o =
        ⟨[a], false, .error "Combination failed: Invalid video file format"⟩)
  ∧ (∀ (env : Video.MuxEnv) (a v o : String),
      jsEndsWith a ".mp3" = true → env.fileExists a = true →
      jsEndsWith v ".mp4" = true → env.fileExists v = false →
      Video.combineVideoAndAudio env a v o =
        ⟨[a, v], false, .error "Combination failed: video file not found"⟩)
  ∧ ("Combination failed: Invalid video file format" : String) ≠
      "Combination failed: video file not found" := by
  refine ⟨?_, ?_, ?_, by decide⟩
  · intro env a v o h1 h2 h3 h4 h5
    simp [Video.combineVideoAndAudio, h1, h2, h3, h4, h5]
  · intro env a v o h1 h2 h3
    simp [Video.combineVideoAndAudio, h1, h2, h3]
  · intro env a v o h1 h2 h3 h4
    simp [Video.combineVideoAndAudio, h1, h2, h3, h4]

/-- Witness for C6 at a concrete filesystem environment. -/
theorem combineVideoAndAudio_validation_witness :
    Video.combineVideoAndAudio
        ⟨fun p => p == "track.mp3" || p == "clips.mp4", none⟩
        "track.mp3" "clips.mp4" "out.mp4" = ⟨["track.mp3", "clips.mp4"], true, .ok "out.mp4"⟩
  ∧ Video.combineVideoAndAudio
        ⟨fun p => p == "track.mp3" || p == "clips.mp4", none⟩
        "track.mp3" "clips.avi" "out.mp4" =
      ⟨["track.mp3"], false, .error "Combination failed: Invalid video file format"⟩ := by
  constructor
  · exact combineVideoAndAudio_validation.1 _ "track.mp3" "clips.mp4" "out.mp4"
      (by decide) (by decide) (by decide) (by decide) rfl
  · exact combineVideoAndAudio_validation.2.1 _ "track.mp3" "clips.avi" "out.mp4"
      (by decide) (by decide) (by decide)

/-! ## C7 — orchestrator validation (corrected: topic is not checked) -/

/-- C7 counterexample: a pipeline configuration with all three credentials,
category and tone present but `topic` missing passes the `createVideo`
validation and reaches component construction, contrary to the claim that a
configuration missing any of credentials/category/tone/topic fails
validation before any component is invoked. -/
theorem createVideo_topic_unchecked :
    (⟨some "Educational", some "Professional", none,
      some "groq-key", some "pexels-key", some "freesound-key"⟩ :
        Orchestrator.PipelineConfig).topic = none
  ∧ Orchestrator.createVideoValidation
      ⟨some "Educational", some "Professional", none,
       some "groq-key", some "pexels-key", some "freesound-key"⟩ = .ok ()
  ∧ (Orchestrator.createVideoPrefix
      ⟨some "Educational", some "Professional", none,
       some "groq-key", some "pexels-key", some "freesound-key"⟩).componentsConstructed
      = true :=
  ⟨rfl, rfl, rfl⟩

/-- C7 (amended): `createVideo` validation succeeds exactly when the three
API credentials and category and tone are truthy — `topic` is not consulted —
and components are constructed exactly when validation succeeds; the
validation itself reads only the configuration (no network environment). -/
theorem createVideo_validation_checks :
    (∀ c : Orchestrator.PipelineConfig,
      Orchestrator.createVideoValidation c = .ok () ↔
        (jsTruthyStr c.groqKey = true ∧ jsTruthyStr c.pexelsKey = true ∧
         jsTruthyStr c.freeSoundKey = true ∧ jsTruthyStr c.category = true ∧
         jsTruthyStr c.tone = true))
  ∧ (∀ c : Orchestrator.PipelineConfig,
      (Orchestrator.createVideoPrefix c).componentsConstructed = true ↔
        Orchestrator.createVideoValidation c = .ok ())
  ∧ (∀ (c : Orchestrator.PipelineConfig) (t : Option String),
      Orchestrator.createVideoValidation { c with topic := t } =
        Orchestrator.createVideoValidation c) := by
  refine ⟨?_, ?_, ?_⟩
  · intro c
    cases hg : jsTruthyStr c.groqKey <;> cases hp : jsTruthyStr c.pexelsKey <;>
      cases hf : jsTruthyStr c.freeSoundKey <;> cases hc : jsTruthyStr c.category <;>
      cases ht : jsTruthyStr c.tone <;>
      simp [Orchestrator.createVideoValidation, hg, hp, hf, hc, ht]
  · intro c
    unfold Orchestrator.createVideoPrefix
    cases h : Orchestrator.createVideoValidation c with
    | error e => simp [h]
    | ok u => cases u; simp
  · intro c t
    simp [Orchestrator.createVideoValidation]

/-- Witness for C7's amended theorem at a concrete configuration. -/
theorem createVideo_validation_checks_witness :
    Orchestrator.createVideoValidation
      ⟨some "Educational", some "Professional", some "AI Technology",
       some "groq-key", some "pexels-key", some "freesound-key"⟩ = .ok () := by
  exact (createVideo_validation_checks.1 _).2 (by refine ⟨?_, ?_, ?_, ?_, ?_⟩ <;> decide)

/-! ## C2 — transition stitching offsets and accumulation -/

theorem claimAccAt_zero (d0 : Rat) (rest : List Video.VideoSegmentInfo) :
    Video.claimAccAt d0 rest 0 = d0 := by
  simp [Video.claimAccAt]

theorem claimAccAt_cons_succ (d0 : Rat) (seg : Video.VideoSegmentInfo)
    (rest : List Video.VideoSegmentInfo) (k : Nat) :
    Video.claimAccAt d0 (seg :: rest) (k + 1) =
      Video.claimAccAt (d0 + seg.duration - Video.TRANSITION_DURATION) rest k := by
  simp only [Video.claimAccAt, List.take_succ_cons, List.map_cons, List.sum_cons]
  ring

theorem claimJoins_cons (prev0 : Option String) (d0 : Rat)
    (seg : Video.VideoSegmentInfo) (rest : List Video.VideoSegmentInfo) :
    Video.claimJoins prev0 d0 (seg :: rest) =
      ⟨Video.mapTransition prev0, max 0 (d0 - Video.TRANSITION_DURATION),
        d0 + seg.duration - Video.TRANSITION_DURATION⟩ ::
      Video.claimJoins seg.transition (d0 + seg.duration - Video.TRANSITION_DURATION) rest := by
  unfold Video.claimJoins
  rw [List.length_cons, List.range_succ_eq_map, List.map_cons, List.map_map]
  congr 1
  · have h1 : Video.claimAccAt d0 (seg :: rest) 1 =
        d0 + seg.duration - Video.TRANSITION_DURATION := by
      rw [claimAccAt_cons_succ, claimAccAt_zero]
    rw [claimAccAt_zero, h1]
    simp
  · apply List.map_congr_left
    intro k _
    simp only [Function.comp_apply, Nat.succ_ne_zero, if_false, Nat.succ_sub_one]
    rw [claimAccAt_cons_succ, claimAccAt_cons_succ]
    cases k with
    | zero => simp
    | succ j => simp

theorem stitchJoins_eq_claimJoins :
    ∀ (rest : List Video.VideoSegmentInfo) (prev : Option String) (acc : Rat),
      Video.stitchJoins prev acc rest = Video.claimJoins prev acc rest := by
  intro rest
  induction rest with
  | nil =>
    intro prev acc
    simp [Video.stitchJoins, Video.claimJoins]
  | cons seg rest ih =>
    intro prev acc
    rw [Video.stitchJoins, claimJoins_cons, clamp_eq_max, ih]

/-- C2: the stitch loop of `combineVideosWithTransitions` computes exactly
the claimed join list — the accumulation starts at the first segment's
duration, each join applies the transition declared on the preceding segment
(mapped through the transition table with "fade" fallback), its offset is
the accumulated duration minus 0.5 clamped below at 0, and the accumulation
then advances by the joined segment's duration minus 0.5 — and for three
clips of durations [5,5,5] the accumulated durations are [5, 9.5, 14]. -/
theorem stitcher_offsets_accumulation :
    (∀ (prev : Option String) (acc : Rat) (rest : List Video.VideoSegmentInfo),
      Video.stitchJoins prev acc rest = Video.claimJoins prev acc rest)
  ∧ (∀ (files : List String) (seg0 : Video.VideoSegmentInfo)
        (rest : List Video.VideoSegmentInfo),
      files.length = rest.length + 1 →
      Video.combineVideosWithTransitions files (seg0 :: rest) =
        .ok (Video.claimJoins seg0.transition seg0.duration rest,
             (((Video.claimJoins seg0.transition seg0.duration rest).map
                 Video.StitchJoin.accAfter).getLast?).getD seg0.duration))
  ∧ (5 :: (Video.stitchJoins (some "fade") 5
        [⟨5, some "slideLeft"⟩, ⟨5, some "pixelize"⟩]).map Video.StitchJoin.accAfter
      = [5, 19/2, 14])
  ∧ ((Video.stitchJoins (some "fade") 5
        [⟨5, some "slideLeft"⟩, ⟨5, some "pixelize"⟩]).map Video.StitchJoin.offset
      = [9/2, 9])
  ∧ ((Video.stitchJoins (some "fade") 5
        [⟨5, some "slideLeft"⟩, ⟨5, some "pixelize"⟩]).map Video.StitchJoin.transitionType
      = ["fade", "slideleft"]) := by
  refine ⟨fun prev acc rest => stitchJoins_eq_claimJoins rest prev acc, ?_, ?_, ?_, ?_⟩
  · intro files seg0 rest h
    have hne : files ≠ [] := by
      intro hnil
      rw [hnil] at h
      simp at h
    have hlen : (seg0 :: rest).length = files.length := by
      rw [h, List.length_cons]
    rw [Video.combineVideosWithTransitions, if_neg hne,
      if_neg (show ¬((seg0 :: rest).length ≠ files.length) from fun hc => hc hlen),
      stitchJoins_eq_claimJoins]
  · norm_num [Video.stitchJoins, Video.mapTransition, jsOrStr,
      Video.TRANSITION_DURATION, Video.TRANSITION_MAPPING, List.lookup]
  · norm_num [Video.stitchJoins, Video.mapTransition, jsOrStr,
      Video.TRANSITION_DURATION, Video.TRANSITION_MAPPING, List.lookup]
  · decide

/-- Witness for C2 at the three-clip scenario. -/
theorem stitcher_offsets_accumulation_witness :
    Video.combineVideosWithTransitions ["a.mp4", "b.mp4", "c.mp4"]
        [⟨5, some "fade"⟩, ⟨5, some "slideLeft"⟩, ⟨5, some "pixelize"⟩]
      = .ok (Video.claimJoins (some "fade") 5 [⟨5, some "slideLeft"⟩, ⟨5, some "pixelize"⟩],
             (((Video.claimJoins (some "fade") 5
                  [⟨5, some "slideLeft"⟩, ⟨5, some "pixelize"⟩]).map
                 Video.StitchJoin.accAfter).getLast?).getD 5) :=
  stitcher_offsets_accumulation.2.1 ["a.mp4", "b.mp4", "c.mp4"] ⟨5, some "fade"⟩
    [⟨5, some "slideLeft"⟩, ⟨5, some "pixelize"⟩] rfl

/-! ## C5 — findSuitableVideo failure path (code bug) -/

/-! ## C9 — generateMusic search terms and retries (corrected) -/

theorem generateMusicLoop_requests_general :
    ∀ (n attempt : Nat), Music.MAX_RETRIES - attempt ≤ n →
      attempt < Music.MAX_RETRIES →
    ∀ (env : Music.MusicEnv) (terms : List String),
      ∃ k, 1 ≤ k ∧ attempt + k ≤ Music.MAX_RETRIES ∧
        (Music.generateMusicLoop env terms attempt).requests =
          (List.range k).map (fun i => Music.reqAt terms (attempt + i)) := by
  intro n
  induction n with
  | zero =>
    intro attempt h1 h2
    omega
  | succ n ih =>
    intro attempt h1 h2 env terms
    rw [Music.generateMusicLoop, dif_pos h2]
    cases hstep : Music.attemptStep env attempt with
    | ok track =>
      refine ⟨1, le_refl 1, by omega, ?_⟩
      simp [Music.reqAt, List.range_succ]
    | error e =>
      by_cases hlast : attempt + 1 ≥ Music.MAX_RETRIES
      · refine ⟨1, le_refl 1, by omega, ?_⟩
        simp [hlast, Music.reqAt, List.range_succ]
      · obtain ⟨k, hk1, hk2, heq⟩ :=
          ih (attempt + 1) (by omega) (by omega) env terms
        refine ⟨k + 1, by omega, by omega, ?_⟩
        simp only [hlast, if_false, heq]
        rw [List.range_succ_eq_map, List.map_cons, List.map_map]
        have htail : List.map ((fun i => Music.reqAt terms (attempt + i)) ∘ Nat.succ)
            (List.range k) =
            List.map (fun i => Music.reqAt terms (attempt + 1 + i)) (List.range k) := by
          apply List.map_congr_left
          intro i _
          have hidx : attempt + (i + 1) = attempt + 1 + i := by omega
          simp [Function.comp_apply, Music.reqAt, hidx]
        rw [htail]
        simp [Music.reqAt]

theorem generateMusicLoop_allfail :
    ∀ (n attempt : Nat), Music.MAX_RETRIES - attempt ≤ n →
      attempt < Music.MAX_RETRIES →
    ∀ (env : Music.MusicEnv) (terms : List String),
      (∀ i, attempt ≤ i → i < Music.MAX_RETRIES →
        ∃ m, Music.attemptStep env i = .error m) →
      (Music.generateMusicLoop env terms attempt).result =
        .error Music.MAX_RETRIES_MSG := by
  intro n
  induction n with
  | zero =>
    intro attempt h1 h2
    omega
  | succ n ih =>
    intro attempt h1 h2 env terms hfail
    obtain ⟨m, hm⟩ := hfail attempt (le_refl attempt) h2
    rw [Music.generateMusicLoop, dif_pos h2, hm]
    by_cases hlast : attempt + 1 ≥ Music.MAX_RETRIES
    · simp [hlast]
    · simp only [hlast, if_false]
      exact ih (attempt + 1) (by omega) (by omega) env terms
        (fun i hi1 hi2 => hfail i (by omega) hi2)

/-- C9 (amended): every attempt `i` searches with the `i`-th mapped term for
the category, falling back to the hard-coded generic phrase (not the last
available term) once the list is exhausted, with the ≥60s duration filter
and rating sort; unmapped categories get the generic fallback pair;
"Food & Cooking" maps to ["warm jazzy", "cozy kitchen"]; a successful
attempt selects `results[floor(random * length)]` — an index that ranges
over the whole result list — and stops; once all 3 attempts fail, the run
ends with the single aggregate error. -/
theorem generateMusic_search_policy :
    (∀ (env : Music.MusicEnv) (cat : String),
      ∃ k, 1 ≤ k ∧ k ≤ Music.MAX_RETRIES ∧
        (Music.generateMusic env cat).requests =
          (List.range k).map (fun i => Music.reqAt (Music.getSearchTerms cat) i))
  ∧ Music.getSearchTerms "Food & Cooking" = ["warm jazzy", "cozy kitchen"]
  ∧ (∀ cat, Music.CATEGORY_MAPPINGS.lookup cat = none →
      Music.getSearchTerms cat = ["background music", "cinematic instrumental"])
  ∧ (∀ (env : Music.MusicEnv) (attempt : Nat) (results : List Music.Track)
        (track : Music.Track),
      attempt < Music.MAX_RETRIES →
      env.search attempt = .ok results →
      results[((env.rand attempt) * results.length).floor.toNat]? = some track →
      env.downloadOk attempt = true →
      ∀ terms, Music.generateMusicLoop env terms attempt =
        ⟨[Music.reqAt terms attempt], .ok (some track)⟩)
  ∧ (∀ (r : Rat) (n : Nat), 0 ≤ r → r < 1 → 0 < n → (r * n).floor.toNat < n)
  ∧ (∀ (env : Music.MusicEnv) (terms : List String),
      (∀ i, i < Music.MAX_RETRIES → ∃ m, Music.attemptStep env i = .error m) →
      (Music.generateMusicLoop env terms 0).result = .error Music.MAX_RETRIES_MSG) := by
  refine ⟨?_, by decide, ?_, ?_, ?_, ?_⟩
  · intro env cat
    obtain ⟨k, hk1, hk2, heq⟩ :=
      generateMusicLoop_requests_general Music.MAX_RETRIES 0 (by decide) (by decide)
        env (Music.getSearchTerms cat)
    exact ⟨k, hk1, by simpa using hk2, by simpa using heq⟩
  · intro cat h
    simp [Music.getSearchTerms, h]
  · intro env attempt results track hlt hsearch hsel hdl terms
    have hstep : Music.attemptStep env attempt = .ok track := by
      have hne : results ≠ [] := by
        rintro rfl
        simp at hsel
      simp [Music.attemptStep, hsearch, hne, hsel, hdl]
    rw [Music.generateMusicLoop, dif_pos hlt, hstep]
    simp [Music.reqAt]
  · intro r n h0 h1 hn
    have hfl : (r * n).floor < (n : Int) := by
      have hlt : r * (n : Rat) < (n : Rat) := by
        have : (0 : Rat) < (n : Rat) := by exact_mod_cast hn
        nlinarith
      have hfle : (((r * (n : Rat)).floor : Int) : Rat) ≤ r * n :=
        Rat.le_floor.mp (le_refl _)
      have : (((r * (n : Rat)).floor : Int) : Rat) < (n : Rat) := lt_of_le_of_lt hfle hlt
      exact_mod_cast this
    have hge : 0 ≤ (r * (n : Rat)).floor := by
      have h0n : (0 : Rat) ≤ r * n := by positivity
      exact Rat.le_floor.mpr (by simpa using h0n)
    omega
  · intro env terms hfail
    exact generateMusicLoop_allfail Music.MAX_RETRIES 0 (by decide) (by decide)
      env terms (fun i _ hi2 => hfail i hi2)

/-- C9 counterexample: with every attempt failing, the "Food & Cooking" run
searches "warm jazzy" then "cozy kitchen", but on the third attempt — the
category list exhausted — it searches the hard-coded generic phrase, not the
last available term "cozy kitchen" as the claim states. -/
theorem generateMusic_exhausted_term_fallback :
    (Music.generateMusic
        ⟨fun _ => .error "API request failed: 404", fun _ => 0, fun _ => false⟩
        "Food & Cooking").requests.map Music.SearchRequest.query
      = ["warm jazzy", "cozy kitchen", "background music cinematic instrumental"]
  ∧ (Music.getSearchTerms "Food & Cooking").getLast? = some "cozy kitchen"
  ∧ ("background music cinematic instrumental" : String) ≠ "cozy kitchen" := by
  refine ⟨?_, by decide, by decide⟩
  rw [Music.generateMusic]
  rw [Music.generateMusicLoop, Music.generateMusicLoop, Music.generateMusicLoop]
  simp [Music.attemptStep, Music.getSearchTerms, Music.MAX_RETRIES,
    Music.CATEGORY_MAPPINGS, Music.FALLBACK_TERM, jsOrStr, List.lookup]

/-- Witness for C9's amended theorem: a successful first attempt selects the
random-indexed track and issues exactly one request, and an unmapped
category falls back to the generic term pair. -/
theorem generateMusic_search_policy_witness :
    Music.generateMusicLoop
        ⟨fun _ => .ok [⟨"Track A", "someone", "urlA"⟩, ⟨"Track B", "someone", "urlB"⟩],
         fun _ => 1/2, fun _ => true⟩
        ["warm jazzy", "cozy kitchen"] 0
      = ⟨[Music.reqAt ["warm jazzy", "cozy kitchen"] 0],
         .ok (some ⟨"Track B", "someone", "urlB"⟩)⟩
  ∧ Music.getSearchTerms "Basket Weaving" = ["background music", "cinematic instrumental"] := by
  constructor
  · refine generateMusic_search_policy.2.2.2.1 _ 0
      [⟨"Track A", "someone", "urlA"⟩, ⟨"Track B", "someone", "urlB"⟩]
      ⟨"Track B", "someone", "urlB"⟩ (by decide) rfl ?_ rfl
      ["warm jazzy", "cozy kitchen"]
    norm_num
    decide
  · exact generateMusic_search_policy.2.2.1 "Basket Weaving" (by decide)

/-- C5: evaluating the search at an environment where every query yields an
empty result list: `findSuitableVideo` resolves `undefined` (`none`) rather
than throwing, so `createMediaSegment` fails destructuring with a TypeError
— not with the explicit "No suitable media found" error the source defines
(that `throw` is unreachable on the no-match path). -/
theorem findSuitableVideo_unmatched_typeerror :
    Video.findSuitableVideo (fun _ => .ok [])
      ⟨"city skyline at night", "Modern cities grow fast"⟩ = none
  ∧ Video.createMediaSegment (fun _ => .ok [])
      ⟨"city skyline at night", "Modern cities grow fast"⟩ =
      .error Video.DESTRUCTURE_TYPEERROR_MSG
  ∧ Video.DESTRUCTURE_TYPEERROR_MSG ≠ Video.NO_SUITABLE_MEDIA_MSG :=
  ⟨rfl, rfl, by decide⟩

/-! ## Script generator lemmas (shared by C3, C4, C8) -/

theorem shouldRetry_of_prefix (m pat : String) (hmem : pat ∈ Script.RETRYABLE_ERRORS)
    (hpre : pat.toList <+: m.toList) : Script.shouldRetry m = true := by
  unfold Script.shouldRetry
  rw [List.any_eq_true]
  exact ⟨pat, hmem, decide_eq_true hpre.isInfix⟩

theorem validateResponse_error_retryable (c : Script.RawContent) (m : String)
    (h : Script.validateResponse c = .error m) : Script.shouldRetry m = true := by
  cases c with
  | empty =>
    simp only [Script.validateResponse, Except.error.injEq] at h
    subst h
    decide
  | parseFailure d =>
    simp only [Script.validateResponse, Except.error.injEq] at h
    subst h
    apply shouldRetry_of_prefix _ "Invalid JSON response" (by decide)
    show ("Invalid JSON response").data <+: ("Invalid JSON response: " ++ d).data
    have hlit : ("Invalid JSON response: ").data =
        ("Invalid JSON response").data ++ (": ").data := by decide
    rw [String.data_append, hlit, List.append_assoc]
    exact List.prefix_append _ _
  | shapeMismatch =>
    simp only [Script.validateResponse, Except.error.injEq] at h
    subst h
    decide
  | parsed r =>
    simp only [Script.validateResponse] at h
    split at h
    · exact absurd h (by simp)
    · simp only [Except.error.injEq] at h
      subst h
      decide

theorem validateResponse_ok_schema (c : Script.RawContent) (r : Script.ScriptResult)
    (h : Script.validateResponse c = .ok r) : Script.scriptSchemaOk r = true := by
  cases c with
  | empty => simp [Script.validateResponse] at h
  | parseFailure d => simp [Script.validateResponse] at h
  | shapeMismatch => simp [Script.validateResponse] at h
  | parsed r0 =>
    simp only [Script.validateResponse] at h
    split at h
    · next hok =>
      injection h with he
      subst he
      exact hok
    · simp at h

theorem generateScript_result_shape :
    ∀ (n attempt : Nat), Script.MAX_RETRIES + 1 - attempt ≤ n →
    ∀ (env : Nat → Script.CallOutcome) (cfg : Script.ScriptConfig),
      (Script.generateScript env cfg attempt).result = .error Script.LLM_ERROR_MESSAGE ∨
      ∃ r, (Script.generateScript env cfg attempt).result = .ok r ∧
        Script.scriptSchemaOk r = true := by
  have hmr : Script.MAX_RETRIES = 3 := rfl
  intro n
  induction n with
  | zero =>
    intro attempt h1 env cfg
    cases hv : Script.validateConfig cfg with
    | error msg =>
      rw [Script.generateScript]
      simp only [hv]
      rw [dif_neg (fun hc => absurd hc.2 (by omega))]
      left
      rfl
    | ok u =>
      cases u
      cases henv : env attempt with
      | failure msg =>
        rw [Script.generateScript]
        simp only [hv, henv]
        rw [dif_neg (fun hc => absurd hc.2 (by omega))]
        left
        rfl
      | response c =>
        cases hvr : Script.validateResponse c with
        | ok script =>
          rw [Script.generateScript]
          simp only [hv, henv, hvr]
          right
          exact ⟨script, rfl, validateResponse_ok_schema c script hvr⟩
        | error msg =>
          rw [Script.generateScript]
          simp only [hv, henv, hvr]
          rw [dif_neg (fun hc => absurd hc.2 (by omega))]
          left
          rfl
  | succ n ih =>
    intro attempt h1 env cfg
    cases hv : Script.validateConfig cfg with
    | error msg =>
      rw [Script.generateScript]
      simp only [hv]
      split
      · next hcond =>
        simpa using ih (attempt + 1) (by omega) env cfg
      · left
        rfl
    | ok u =>
      cases u
      cases henv : env attempt with
      | failure msg =>
        rw [Script.generateScript]
        simp only [hv, henv]
        split
        · next hcond =>
          simpa using ih (attempt + 1) (by omega) env cfg
        · left
          rfl
      | response c =>
        cases hvr : Script.validateResponse c with
        | ok script =>
          rw [Script.generateScript]
          simp only [hv, henv, hvr]
          right
          exact ⟨script, rfl, validateResponse_ok_schema c script hvr⟩
        | error msg =>
          rw [Script.generateScript]
          simp only [hv, henv, hvr]
          split
          · next hcond =>
            simpa using ih (attempt + 1) (by omega) env cfg
          · left
            rfl

theorem generateScript_delays_prefix :
    ∀ (n attempt : Nat), Script.MAX_RETRIES + 1 - attempt ≤ n →
    ∀ (env : Nat → Script.CallOutcome) (cfg : Script.ScriptConfig),
      (Script.generateScript env cfg attempt).delays <+:
        (List.range' (attempt + 1) (Script.MAX_RETRIES - attempt)).map
          (fun i => 1000 * i) := by
  have hmr : Script.MAX_RETRIES = 3 := rfl
  intro n
  induction n with
  | zero =>
    intro attempt h1 env cfg
    cases hv : Script.validateConfig cfg with
    | error msg =>
      rw [Script.generateScript]
      simp only [hv]
      rw [dif_neg (fun hc => absurd hc.2 (by omega))]
      exact List.nil_prefix
    | ok u =>
      cases u
      cases henv : env attempt with
      | failure msg =>
        rw [Script.generateScript]
        simp only [hv, henv]
        rw [dif_neg (fun hc => absurd hc.2 (by omega))]
        exact List.nil_prefix
      | response c =>
        cases hvr : Script.validateResponse c with
        | ok script =>
          rw [Script.generateScript]
          simp only [hv, henv, hvr]
          exact List.nil_prefix
        | error msg =>
          rw [Script.generateScript]
          simp only [hv, henv, hvr]
          rw [dif_neg (fun hc => absurd hc.2 (by omega))]
          exact List.nil_prefix
  | succ n ih =>
    intro attempt h1 env cfg
    have hsub : Script.MAX_RETRIES - attempt < Script.MAX_RETRIES + 1 := by omega
    cases hv : Script.validateConfig cfg with
    | error msg =>
      rw [Script.generateScript]
      simp only [hv]
      split
      · next hcond =>
        have hstep : Script.MAX_RETRIES - attempt =
            (Script.MAX_RETRIES - (attempt + 1)) + 1 := by
          have := hcond.2
          omega
        rw [hstep, List.range'_succ, List.map_cons]
        exact List.cons_prefix_cons.mpr ⟨rfl, ih (attempt + 1) (by omega) env cfg⟩
      · exact List.nil_prefix
    | ok u =>
      cases u
      cases henv : env attempt with
      | failure msg =>
        rw [Script.generateScript]
        simp only [hv, henv]
        split
        · next hcond =>
          have hstep : Script.MAX_RETRIES - attempt =
              (Script.MAX_RETRIES - (attempt + 1)) + 1 := by
            have := hcond.2
            omega
          rw [hstep, List.range'_succ, List.map_cons]
          exact List.cons_prefix_cons.mpr ⟨rfl, ih (attempt + 1) (by omega) env cfg⟩
        · exact List.nil_prefix
      | response c =>
        cases hvr : Script.validateResponse c with
        | ok script =>
          rw [Script.generateScript]
          simp only [hv, henv, hvr]
          exact List.nil_prefix
        | error msg =>
          rw [Script.generateScript]
          simp only [hv, henv, hvr]
          split
          · next hcond =>
            have hstep : Script.MAX_RETRIES - attempt =
                (Script.MAX_RETRIES - (attempt + 1)) + 1 := by
              have := hcond.2
              omega
            rw [hstep, List.range'_succ, List.map_cons]
            exact List.cons_prefix_cons.mpr ⟨rfl, ih (attempt + 1) (by omega) env cfg⟩
          · exact List.nil_prefix

theorem generateScript_allretry :
    ∀ (n attempt : Nat), attempt + n = Script.MAX_RETRIES + 1 → 1 ≤ n →
    ∀ (env : Nat → Script.CallOutcome) (cfg : Script.ScriptConfig),
      Script.validateConfig cfg = .ok () →
      (∀ i, Script.RetryableFailureAt env i) →
      Script.generateScript env cfg attempt =
        ⟨n, (List.range' (attempt + 1) (Script.MAX_RETRIES - attempt)).map
              (fun i => 1000 * i),
          .error Script.LLM_ERROR_MESSAGE⟩ := by
  have hmr : Script.MAX_RETRIES = 3 := rfl
  intro n
  induction n with
  | zero =>
    intro attempt h1 h2 env cfg hv hfail
    omega
  | succ n ih =>
    intro attempt h1 h2 env cfg hv hfail
    have hret := hfail attempt
    unfold Script.RetryableFailureAt at hret
    rcases Nat.eq_zero_or_pos n with hn0 | hnpos
    · -- attempt = MAX_RETRIES: the guard fails, one final call, no delay
      subst hn0
      have hlast : ¬(attempt < Script.MAX_RETRIES) := by omega
      have hrange : Script.MAX_RETRIES - attempt = 0 := by omega
      cases henv : env attempt with
      | failure msg =>
        rw [Script.generateScript]
        simp only [hv, henv]
        rw [dif_neg (fun hc => hlast hc.2), hrange]
        rfl
      | response c =>
        rw [henv] at hret
        obtain ⟨m, hm, hsr⟩ := hret
        rw [Script.generateScript]
        simp only [hv, henv, hm]
        rw [dif_neg (fun hc => hlast hc.2), hrange]
        rfl
    · -- attempt < MAX_RETRIES: the guard holds and the run recurses
      have hlt : attempt < Script.MAX_RETRIES := by omega
      have hrec := ih (attempt + 1) (by omega) (by omega) env cfg hv hfail
      have hstep : Script.MAX_RETRIES - attempt =
          (Script.MAX_RETRIES - (attempt + 1)) + 1 := by omega
      cases henv : env attempt with
      | failure msg =>
        rw [henv] at hret
        rw [Script.generateScript]
        simp only [hv, henv]
        rw [dif_pos ⟨hret, hlt⟩, hrec, hstep, List.range'_succ, List.map_cons]
        simp [Nat.add_comm]
      | response c =>
        rw [henv] at hret
        obtain ⟨m, hm, hsr⟩ := hret
        rw [Script.generateScript]
        simp only [hv, henv, hm]
        rw [dif_pos ⟨hsr, hlt⟩, hrec, hstep, List.range'_succ, List.map_cons]
        simp [Nat.add_comm]

theorem scriptSchemaOk_iff (r : Script.ScriptResult) :
    Script.scriptSchemaOk r = true ↔
      (3 ≤ r.segments.length ∧ ∀ seg ∈ r.segments,
        0 < seg.id ∧ 15 ≤ seg.text.length ∧ seg.duration = 5 ∧
        5 ≤ seg.description.length ∧ seg.transition ∈ Script.TRANSITION_ENUM) := by
  simp [Script.scriptSchemaOk, Script.segmentSchemaOk, List.all_eq_true, and_assoc]

/-! ## C3 — generateScript retry policy -/

/-- C3: with a valid config, a run whose every attempt fails retryably makes
exactly 4 endpoint calls (the original plus 3 retries) with backoff delays
1s, 2s, 3s and then raises the generic model-failure message; a
non-retryable first error is fatal immediately after 1 call with no delay;
every error a run raises is the generic message, never internal detail; and
the awaited delays are always an initial segment of [1s, 2s, 3s]. -/
theorem script_retry_policy :
    (∀ (env : Nat → Script.CallOutcome) (cfg : Script.ScriptConfig),
      Script.validateConfig cfg = .ok () →
      (∀ i, Script.RetryableFailureAt env i) →
      Script.generateScript env cfg 0 =
        ⟨4, [1000, 2000, 3000], .error Script.LLM_ERROR_MESSAGE⟩)
  ∧ (∀ (env : Nat → Script.CallOutcome) (cfg : Script.ScriptConfig) (m : String),
      Script.validateConfig cfg = .ok () →
      env 0 = .failure m → Script.shouldRetry m = false →
      Script.generateScript env cfg 0 = ⟨1, [], .error Script.LLM_ERROR_MESSAGE⟩)
  ∧ (∀ (env : Nat → Script.CallOutcome) (cfg : Script.ScriptConfig)
        (attempt : Nat) (m : String),
      (Script.generateScript env cfg attempt).result = .error m →
      m = Script.LLM_ERROR_MESSAGE)
  ∧ (∀ (env : Nat → Script.CallOutcome) (cfg : Script.ScriptConfig),
      (Script.generateScript env cfg 0).delays <+: [1000, 2000, 3000]) := by
  have hlist : (List.range' (0 + 1) (Script.MAX_RETRIES - 0)).map (fun i => 1000 * i)
      = [1000, 2000, 3000] := by decide
  refine ⟨?_, ?_, ?_, ?_⟩
  · intro env cfg hv hfail
    have h := generateScript_allretry 4 0 rfl (by omega) env cfg hv hfail
    rw [hlist] at h
    exact h
  · intro env cfg m hv henv hsr
    rw [Script.generateScript]
    simp only [hv, henv]
    rw [dif_neg (fun hc => absurd hc.1 (by simp [hsr]))]
  · intro env cfg attempt m hres
    rcases generateScript_result_shape (Script.MAX_RETRIES + 1) attempt
        (Nat.sub_le _ _) env cfg with h | ⟨r, hr, -⟩
    · rw [hres] at h
      exact Except.error.inj h
    · rw [hres] at hr
      simp at hr
  · intro env cfg
    have h := generateScript_delays_prefix (Script.MAX_RETRIES + 1) 0
      (Nat.sub_le _ _) env cfg
    rw [hlist] at h
    exact h

/-- Witness for C3: a concrete run whose every attempt throws the retryable
"Unexpected end of JSON input" error. -/
theorem script_retry_policy_witness :
    Script.generateScript (fun _ => .failure "Unexpected end of JSON input")
        ⟨some 30, some "Educational", some "Professional", some "media"⟩ 0 =
      ⟨4, [1000, 2000, 3000], .error Script.LLM_ERROR_MESSAGE⟩ := by
  refine script_retry_policy.1 _ _ rfl ?_
  intro i
  exact (by decide : Script.shouldRetry "Unexpected end of JSON input" = true)

/-! ## C4 — ScriptResult schema enforcement -/

/-- C4: every ScriptResult a `generateScript` run returns has at least 3
segments, each with a positive integer id, text of at least the minimum
length, duration exactly the canonical 5, description of at least the
minimum length, and a transition from the fixed enum; a parsed response
violating the schema is rejected with a retryable error, so it enters the
retry path and is never returned. -/
theorem script_schema_enforced :
    (∀ (env : Nat → Script.CallOutcome) (cfg : Script.ScriptConfig)
        (attempt : Nat) (r : Script.ScriptResult),
      (Script.generateScript env cfg attempt).result = .ok r →
      3 ≤ r.segments.length ∧ ∀ seg ∈ r.segments,
        0 < seg.id ∧ 15 ≤ seg.text.length ∧ seg.duration = 5 ∧
        5 ≤ seg.description.length ∧ seg.transition ∈ Script.TRANSITION_ENUM)
  ∧ (∀ r : Script.ScriptResult, Script.scriptSchemaOk r = false →
      ∃ m, Script.validateResponse (.parsed r) = .error m ∧
        Script.shouldRetry m = true) := by
  constructor
  · intro env cfg attempt r hres
    rcases generateScript_result_shape (Script.MAX_RETRIES + 1) attempt
        (Nat.sub_le _ _) env cfg with h | ⟨r', hr', hschema⟩
    · rw [hres] at h
      simp at h
    · rw [hres] at hr'
      injection hr' with he
      subst he
      exact (scriptSchemaOk_iff r).mp hschema
  · intro r h
    refine ⟨"Invalid JSON response: " ++ "Invalid JSON structure", ?_, by decide⟩
    simp [Script.validateResponse, h]

/-- Witness for C4: a run whose first attempt returns a schema-conforming
three-segment script, evaluated concretely. -/
theorem script_schema_enforced_witness :
    3 ≤ (Script.ScriptResult.mk
        [⟨1, "The first fact appears on screen now.", 5, "City skyline", "fade"⟩,
         ⟨2, "A second fact follows with more detail.", 5, "Busy street", "slideLeft"⟩,
         ⟨3, "The closing line wraps everything up.", 5, "Sunset shot", "dissolve"⟩]).segments.length
  ∧ ∀ seg ∈ (Script.ScriptResult.mk
        [⟨1, "The first fact appears on screen now.", 5, "City skyline", "fade"⟩,
         ⟨2, "A second fact follows with more detail.", 5, "Busy street", "slideLeft"⟩,
         ⟨3, "The closing line wraps everything up.", 5, "Sunset shot", "dissolve"⟩]).segments,
      0 < seg.id ∧ 15 ≤ seg.text.length ∧ seg.duration = 5 ∧
      5 ≤ seg.description.length ∧ seg.transition ∈ Script.TRANSITION_ENUM := by
  refine script_schema_enforced.1
    (fun _ => .response (.parsed (Script.ScriptResult.mk
        [⟨1, "The first fact appears on screen now.", 5, "City skyline", "fade"⟩,
         ⟨2, "A second fact follows with more detail.", 5, "Busy street", "slideLeft"⟩,
         ⟨3, "The closing line wraps everything up.", 5, "Sunset shot", "dissolve"⟩])))
    ⟨some 30, some "Educational", some "Professional", some "media"⟩ 0 _ ?_
  rw [Script.generateScript]
  rfl

/-! ## C8 — generateScript config preconditions (code bug) -/

/-- C8: the failing input — a config with duration, category and tone present
and duration divisible by 5, but no `style`.  `validateConfig` rejects it
with "Missing required fields: style" (the repository's own test expects
this config to pass), and `generateScript` then surfaces the generic LLM
failure message to its caller rather than the descriptive validation error;
adding `style` makes the same config pass. -/
theorem validateConfig_requires_style :
    Script.validateConfig ⟨some 30, some "Educational", some "Professional", none⟩
      = .error "Missing required fields: style"
  ∧ (∀ env : Nat → Script.CallOutcome,
      (Script.generateScript env
        ⟨some 30, some "Educational", some "Professional", none⟩ 0).result
      = .error Script.LLM_ERROR_MESSAGE)
  ∧ Script.validateConfig ⟨some 30, some "Educational", some "Professional", some "media"⟩
      = .ok () := by
  refine ⟨rfl, ?_, rfl⟩
  intro env
  rw [Script.generateScript]
  have hv : Script.validateConfig ⟨some 30, some "Educational", some "Professional", none⟩
      = .error "Missing required fields: style" := rfl
  simp only [hv]
  rw [dif_neg (fun hc => absurd hc.1 (by decide))]

/-! ## C1 — batch controller invariants -/

theorem admitLoop_length_sum (mc : Nat) :
    ∀ (q a : List Nat),
      (Batch.admitLoop mc q a).1.length + (Batch.admitLoop mc q a).2.length =
        q.length + a.length := by
  intro q
  induction q with
  | nil => intro a; simp [Batch.admitLoop]
  | cons t rest ih =>
    intro a
    rw [Batch.admitLoop]
    split
    · rw [ih (a ++ [t])]
      simp
      omega
    · simp

theorem admitLoop_active_le (mc : Nat) :
    ∀ (q a : List Nat), a.length ≤ mc →
      (Batch.admitLoop mc q a).2.length ≤ mc := by
  intro q
  induction q with
  | nil => intro a h; simpa [Batch.admitLoop] using h
  | cons t rest ih =>
    intro a h
    rw [Batch.admitLoop]
    split
    · next hlt =>
      exact ih (a ++ [t]) (by simpa using hlt)
    · exact h

theorem processQueue_invariant (mc count : Nat) (s : Batch.BatchState)
    (hact : s.active.length ≤ mc)
    (hsum : s.queue.length + s.active.length +
      (s.results.length + s.errors.length) = count)
    (hemit : s.summaries = []) :
    Batch.batchInvariant mc count (Batch.processQueue mc s) := by
  have h1 := admitLoop_length_sum mc s.queue s.active
  have h2 := admitLoop_active_le mc s.queue s.active hact
  by_cases hcomp : (Batch.admitLoop mc s.queue s.active).1 = [] ∧
      (Batch.admitLoop mc s.queue s.active).2 = []
  · have hpq : Batch.processQueue mc s =
        { queue := (Batch.admitLoop mc s.queue s.active).1,
          active := (Batch.admitLoop mc s.queue s.active).2,
          results := s.results, errors := s.errors,
          summaries := s.summaries ++
            [(s.results.length, s.errors.length, Batch.totalDuration s.results)] } := by
      unfold Batch.processQueue
      exact if_pos hcomp
    rw [hpq]
    refine ⟨h2, by dsimp only; omega, ?_⟩
    show s.summaries ++
        [(s.results.length, s.errors.length, Batch.totalDuration s.results)] =
      if (Batch.admitLoop mc s.queue s.active).1 = [] ∧
          (Batch.admitLoop mc s.queue s.active).2 = [] then
        [(s.results.length, s.errors.length, Batch.totalDuration s.results)]
      else []
    rw [if_pos hcomp, hemit]
    rfl
  · have hpq : Batch.processQueue mc s =
        { queue := (Batch.admitLoop mc s.queue s.active).1,
          active := (Batch.admitLoop mc s.queue s.active).2,
          results := s.results, errors := s.errors,
          summaries := s.summaries } := by
      unfold Batch.processQueue
      exact if_neg hcomp
    rw [hpq]
    refine ⟨h2, by dsimp only; omega, ?_⟩
    show s.summaries =
      if (Batch.admitLoop mc s.queue s.active).1 = [] ∧
          (Batch.admitLoop mc s.queue s.active).2 = [] then
        [(s.results.length, s.errors.length, Batch.totalDuration s.results)]
      else []
    rw [if_neg hcomp, hemit]

theorem finishTask_invariant (mc count : Nat) (s : Batch.BatchState)
    (t : Nat) (o : Batch.TaskOutcome)
    (hinv : Batch.batchInvariant mc count s) (ht : t ∈ s.active) :
    Batch.batchInvariant mc count (Batch.finishTask mc s t o) := by
  obtain ⟨hact, hsum, hemit⟩ := hinv
  have hne : s.active ≠ [] := List.ne_nil_of_mem ht
  have hpos : 0 < s.active.length := List.length_pos.mpr hne
  have hemit0 : s.summaries = [] := by
    rw [hemit, if_neg]
    intro hc
    exact hne hc.2
  have herase : (s.active.erase t).length = s.active.length - 1 :=
    List.length_erase_of_mem ht
  unfold Batch.finishTask
  cases o with
  | success d =>
    apply processQueue_invariant <;> simp [herase, hemit0] <;> omega
  | failure d =>
    apply processQueue_invariant <;> simp [herase, hemit0] <;> omega

/-- C1: at every observation point of a batch run with `maxConcurrent ≥ 1`
(after the initial `processQueue` and after each task-completion handler),
the active set's size never exceeds `maxConcurrent`, queued + active +
completed (results plus errors) always sums to the submitted `count`, and
the completion summary (success count, failure count, total duration) has
been emitted exactly once at the first state where queue and active set are
both empty — and never before. -/
theorem batch_concurrency_invariant :
    ∀ (mc count : Nat) (s : Batch.BatchState), 1 ≤ mc →
      Batch.Reachable mc (Batch.startBatch mc count) s →
      Batch.batchInvariant mc count s := by
  intro mc count s _hmc hreach
  induction hreach with
  | refl =>
    apply processQueue_invariant
    · simp
    · simp
    · rfl
  | tail hsteps hstep ih =>
    cases hstep with
    | finish t o ht =>
      exact finishTask_invariant mc count _ t o ih ht

/-- Witness for C1: the invariant evaluated on a concrete batch of 5 tasks
with ceiling 2, at batch start and after the first task completes. -/
theorem batch_concurrency_invariant_witness :
    Batch.batchInvariant 2 5 (Batch.startBatch 2 5)
  ∧ Batch.batchInvariant 2 5
      (Batch.finishTask 2 (Batch.startBatch 2 5) 0 (.success 7)) := by
  constructor
  · exact batch_concurrency_invariant 2 5 _ (by norm_num) Relation.ReflTransGen.refl
  · exact batch_concurrency_invariant 2 5 _ (by norm_num)
      (Relation.ReflTransGen.single
        (Batch.BatchStep.finish (Batch.startBatch 2 5) 0 (.success 7) (by decide)))

end ClipCreator

